import Mathlib

/-!
Verification development for the Kafka messaging layer of the
`derived-express` repository (`src/shared/kafka/`): the event envelope and
its zod tagged-union schema (`event-types.ts`), the producer service
(`kafka-producer.service.ts`), the consumer service
(`kafka-consumer.service.ts`) and the connection manager with its circuit
breaker (`kafka-client.ts`).

Conventions of the shallow embedding:
* JavaScript objects / JSON values are modelled by the `JsonVal` inductive;
  an object is an association list of fields in insertion order.
* `JSON.parse` of a message's byte value is abstracted by `RawBytes`: a
  value is represented either by the JSON value its text parses to
  (`jsonBytes`) or as text that is not valid JSON (`rawText`).
* JavaScript numbers are modelled by `Int` (no claim involves fractional
  values); wall-clock instants by `Nat` milliseconds.
* Effects (broker sends, handler invocations, sleeps) are made explicit as
  action traces; fallible code returns `Except`.
-/

namespace DerivedExpress

/-! ## JSON values -/

inductive JsonVal where
  | null
  | bool (b : Bool)
  | num (n : Int)
  | str (s : String)
  | arr (elems : List JsonVal)
  | obj (fields : List (String × JsonVal))

/-- `JSON.stringify` string escaping (quote and backslash; control-character
escapes do not occur in any value considered here). -/
def escapeStr (s : String) : String :=
  s.foldl (fun acc c =>
    if c = '\\' then acc ++ "\\\\"
    else if c = '\"' then acc ++ "\\\"" else acc.push c) ""

def renderStr (s : String) : String := "\"" ++ escapeStr s ++ "\""

mutual

/-- `JSON.stringify` on a JSON value (object fields in insertion order). -/
def JsonVal.render : JsonVal → String
  | .null => "null"
  | .bool true => "true"
  | .bool false => "false"
  | .num n => toString n
  | .str s => renderStr s
  | .arr xs => "[" ++ JsonVal.renderElems xs ++ "]"
  | .obj fs => "\x7b" ++ JsonVal.renderFields fs ++ "\x7d"

def JsonVal.renderElems : List JsonVal → String
  | [] => ""
  | [x] => x.render
  | x :: y :: rest => x.render ++ "," ++ JsonVal.renderElems (y :: rest)

def JsonVal.renderFields : List (String × JsonVal) → String
  | [] => ""
  | [(k, v)] => renderStr k ++ ":" ++ v.render
  | (k, v) :: y :: rest => renderStr k ++ ":" ++ v.render ++ "," ++ JsonVal.renderFields (y :: rest)

end

/-- Field lookup on a JavaScript object (first occurrence). -/
def getF (fs : List (String × JsonVal)) (k : String) : Option JsonVal :=
  match fs with
  | [] => none
  | (n, v) :: rest => if n == k then some v else getF rest k

/-- JavaScript object-literal update semantics: assigning to an existing key
replaces its value in place, otherwise the key is appended. -/
def setF (fs : List (String × JsonVal)) (k : String) (v : JsonVal) : List (String × JsonVal) :=
  if fs.any (fun p => p.1 == k) then
    fs.map (fun p => if p.1 == k then (p.1, v) else p)
  else fs ++ [(k, v)]

/-! ## Validation primitives (zod string checks)

`isUuid`, `isDatetime` and `isEmail` embed `z.string().uuid()`,
`z.string().datetime()` and `z.string().email()`.  The shapes accepted are
the 8-4-4-4-12 hex-group UUID form, the `YYYY-MM-DDTHH:MM:SS(.fff)?Z` form
produced by `Date#toISOString`, and a local@domain.tld form; the finer
points of zod's regexes are not load-bearing for any claim. -/

def isHexDigit (c : Char) : Bool :=
  c.isDigit || ('a' ≤ c && c ≤ 'f') || ('A' ≤ c && c ≤ 'F')

/-- Split a character list at every occurrence of `c` (the separators are
dropped, empty groups kept), as `String#split` does. -/
def splitOnChar (c : Char) : List Char → List (List Char)
  | [] => [[]]
  | x :: xs =>
    let r := splitOnChar c xs
    if x = c then [] :: r
    else match r with
      | [] => [[x]]
      | g :: gs => (x :: g) :: gs

def isUuid (s : String) : Bool :=
  match splitOnChar '-' s.data with
  | [a, b, c, d, e] =>
    a.length == 8 && b.length == 4 && c.length == 4 && d.length == 4 && e.length == 12
      && (a ++ b ++ c ++ d ++ e).all isHexDigit
  | _ => false

def allDigitsL (l : List Char) : Bool := l.all Char.isDigit

def isDatetime (s : String) : Bool :=
  match splitOnChar 'T' s.data with
  | [d, t] =>
    (match splitOnChar '-' d with
     | [y, mo, da] =>
       y.length == 4 && mo.length == 2 && da.length == 2 && allDigitsL (y ++ mo ++ da)
     | _ => false)
    &&
    (match t.getLast? with
     | some 'Z' =>
       (match splitOnChar ':' t.dropLast with
        | [h, mi, se] =>
          h.length == 2 && mi.length == 2 && allDigitsL (h ++ mi) &&
          (match splitOnChar '.' se with
           | [ss] => ss.length == 2 && allDigitsL ss
           | [ss, fr] => ss.length == 2 && allDigitsL ss && !fr.isEmpty && allDigitsL fr
           | _ => false)
        | _ => false)
     | _ => false)
  | _ => false

def isEmail (s : String) : Bool :=
  match splitOnChar '@' s.data with
  | [l, d] =>
    !l.isEmpty &&
      (match splitOnChar '.' d with
       | [_] => false
       | parts => parts.all (fun p => !p.isEmpty))
  | _ => false

/-! ## Event types (`event-types.ts`) -/

structure OrderItem where
  productId : String
  quantity : Int
  price : Int
deriving Repr, DecidableEq

/-- The payload variants of the discriminated union `EventSchema`. -/
inductive Payload where
  | userCreated (userId email name : String)
  | userUpdated (userId : String) (changes : List (String × JsonVal))
  | userDeleted (userId : String)
  | orderCreated (orderId userId : String) (amount : Int) (items : List OrderItem)
  | dlqMessage (originalTopic : String) (originalPartition : Int) (originalOffset : String)
      (originalMessage : Option String) (error : String) (errorStack : Option String)

/-- The parsed event envelope (output of `EventSchema.parse`). -/
structure Envelope where
  eventId : String
  eventType : String
  timestamp : String
  version : String
  metadata : Option (List (String × JsonVal))
  payload : Payload

def ensureB (b : Bool) (msg : String) : Except String Unit :=
  if b then .ok () else .error msg

def reqStr (fs : List (String × JsonVal)) (k : String) : Except String String :=
  match getF fs k with
  | some (.str s) => .ok s
  | _ => .error ("expected string field " ++ k)

def reqNum (fs : List (String × JsonVal)) (k : String) : Except String Int :=
  match getF fs k with
  | some (.num n) => .ok n
  | _ => .error ("expected number field " ++ k)

def optStr (fs : List (String × JsonVal)) (k : String) : Except String (Option String) :=
  match getF fs k with
  | none => .ok none
  | some (.str s) => .ok (some s)
  | some _ => .error ("expected optional string field " ++ k)

def parseItems : List JsonVal → Except String (List OrderItem)
  | [] => .ok []
  | .obj f :: rest => do
      let pid ← reqStr f "productId"
      let q ← reqNum f "quantity"
      let pr ← reqNum f "price"
      let tl ← parseItems rest
      .ok (⟨pid, q, pr⟩ :: tl)
  | _ :: _ => .error "expected item object"

/-- Per-variant payload validation of the discriminated union (the
discriminator `eventType` selects which payload object shape is required). -/
def parsePayload (et : String) (fs : List (String × JsonVal)) : Except String Payload :=
  match getF fs "payload" with
  | some (.obj p) =>
      if et == "user.created" then do
        let uid ← reqStr p "userId"
        let em ← reqStr p "email"
        let _ ← ensureB (isEmail em) "invalid email"
        let nm ← reqStr p "name"
        .ok (.userCreated uid em nm)
      else if et == "user.updated" then do
        let uid ← reqStr p "userId"
        let ch ← (match getF p "changes" with
                  | some (.obj c) => Except.ok c
                  | _ => Except.error "expected changes record")
        .ok (.userUpdated uid ch)
      else if et == "user.deleted" then do
        let uid ← reqStr p "userId"
        .ok (.userDeleted uid)
      else if et == "order.created" then do
        let oid ← reqStr p "orderId"
        let uid ← reqStr p "userId"
        let am ← reqNum p "amount"
        let its ← (match getF p "items" with
                   | some (.arr xs) => parseItems xs
                   | _ => Except.error "expected items array")
        .ok (.orderCreated oid uid am its)
      else if et == "dlq.message" then do
        let ot ← reqStr p "originalTopic"
        let op ← reqNum p "originalPartition"
        let oo ← reqStr p "originalOffset"
        let om ← optStr p "originalMessage"
        let er ← reqStr p "error"
        let es ← optStr p "errorStack"
        .ok (.dlqMessage ot op oo om er es)
      else .error ("invalid discriminator value " ++ et)
  | _ => .error "expected payload object"

/-- `version: z.string().default("1.0")`. -/
def verField (fs : List (String × JsonVal)) : Except String String :=
  match getF fs "version" with
  | none => .ok "1.0"
  | some (.str s) => .ok s
  | some _ => .error "expected string version"

/-- `metadata: z.record(z.unknown()).optional()`. -/
def mdField (fs : List (String × JsonVal)) :
    Except String (Option (List (String × JsonVal))) :=
  match getF fs "metadata" with
  | none => .ok none
  | some (.obj m) => .ok (some m)
  | some _ => .error "expected object metadata"

/-- `EventSchema.parse`: validates a JSON value against the tagged-union
schema and returns the parsed envelope (unknown keys stripped, `version`
defaulting to "1.0"); throws (`Except.error`) on any structural mismatch. -/
def parseEnvelope : JsonVal → Except String Envelope
  | .obj fs => do
      let et ← reqStr fs "eventType"
      let eid ← reqStr fs "eventId"
      let _ ← ensureB (isUuid eid) "invalid uuid"
      let ts ← reqStr fs "timestamp"
      let _ ← ensureB (isDatetime ts) "invalid datetime"
      let ver ← verField fs
      let md ← mdField fs
      let pay ← parsePayload et fs
      Except.ok ⟨eid, et, ts, ver, md, pay⟩
  | _ => .error "expected object"

/-- The JSON object a parsed envelope serializes back to
(schema-shape key order, optional keys omitted when absent). -/
def serializePayloadFields : Payload → List (String × JsonVal)
  | .userCreated u e n => [("userId", .str u), ("email", .str e), ("name", .str n)]
  | .userUpdated u c => [("userId", .str u), ("changes", .obj c)]
  | .userDeleted u => [("userId", .str u)]
  | .orderCreated o u a its =>
      [("orderId", .str o), ("userId", .str u), ("amount", .num a),
       ("items", .arr (its.map (fun it =>
         .obj [("productId", .str it.productId), ("quantity", .num it.quantity),
               ("price", .num it.price)])))]
  | .dlqMessage t p o m e st =>
      [("originalTopic", .str t), ("originalPartition", .num p), ("originalOffset", .str o)]
      ++ (match m with | some s => [("originalMessage", .str s)] | none => [])
      ++ [("error", .str e)]
      ++ (match st with | some s => [("errorStack", .str s)] | none => [])

def envelopeJson (v : Envelope) : JsonVal :=
  .obj ([("eventId", .str v.eventId), ("eventType", .str v.eventType),
         ("timestamp", .str v.timestamp), ("version", .str v.version)]
        ++ (match v.metadata with | some m => [("metadata", .obj m)] | none => [])
        ++ [("payload", .obj (serializePayloadFields v.payload))])

/-- `JSON.stringify(validatedEvent)`. -/
def serializeEnvelope (v : Envelope) : String := (envelopeJson v).render

/-! Message values on the consume path. -/

inductive RawBytes where
  | jsonBytes (j : JsonVal)
  | rawText (s : String)

def RawBytes.toStr : RawBytes → String
  | .jsonBytes j => j.render
  | .rawText s => s

/-- `JSON.parse(message.value.toString())`. -/
def jsonParse : RawBytes → Except String JsonVal
  | .jsonBytes j => .ok j
  | .rawText _ => .error "Unexpected token in JSON"

/-- Topic constants (`KAFKA_TOPICS`). -/
def USER_EVENTS : String := "user.events"
def ORDER_EVENTS : String := "order.events"
def NOTIFICATION_EVENTS : String := "notification.events"
def DLQ_TOPIC : String := "dead-letter-queue"

/-! ## Producer service (`kafka-producer.service.ts`) -/

structure PublishOptions where
  key : Option String := none
  partition : Option Nat := none
  headers : List (String × String) := []

/-- One message of a `producer.send` request. -/
structure KMessage where
  key : String
  value : String
  partition : Option Nat
  headers : List (String × String)

/-- A `producer.send` request (GZIP compression recorded as a flag). -/
structure SendRequest where
  topic : String
  gzip : Bool
  messages : List KMessage

def fieldsOf : JsonVal → List (String × JsonVal)
  | .obj fs => fs
  | _ => []

/-- `{ ...event, eventId: uuidv4(), timestamp: new Date().toISOString() }`:
the spread of the caller-supplied event with `eventId` and `timestamp`
assigned afterwards, overriding any same-named field of the input.
`freshId` and `now` are the values returned by `uuidv4()` and
`new Date().toISOString()`. -/
def enrich (event : JsonVal) (freshId now : String) : JsonVal :=
  .obj (setF (setF (fieldsOf event) "eventId" (.str freshId)) "timestamp" (.str now))

/-- JavaScript `options?.key || validatedEvent.eventId`: the empty string is
falsy, so it falls through to the eventId. -/
def jsKey (callerKey : Option String) (eid : String) : String :=
  match callerKey with
  | some k => if k == "" then eid else k
  | none => eid

/-- `{ ...options?.headers, eventType, eventId }`: the producer-assigned
entries override caller-supplied entries of the same name.  Headers are a
key/value map; the association list keeps one entry per key. -/
def mkHeaders (callerHeaders : List (String × String)) (et eid : String) :
    List (String × String) :=
  callerHeaders.filter (fun p => !(p.1 == "eventType") && !(p.1 == "eventId"))
    ++ [("eventType", et), ("eventId", eid)]

/-- `publishEvent(topic, event, options?)`: enriches, validates, and builds
the single-message send request.  Producer acquisition and the broker send
are modelled as succeeding; a validation failure is rethrown wrapped, before
any broker interaction. -/
def publishEvent (topic : String) (event : JsonVal) (options : PublishOptions)
    (freshId now : String) : Except String SendRequest :=
  match parseEnvelope (enrich event freshId now) with
  | .error e => .error ("Failed to publish event: " ++ e)
  | .ok v =>
      .ok { topic := topic, gzip := true,
            messages := [ { key := jsKey options.key v.eventId,
                            value := serializeEnvelope v,
                            partition := options.partition,
                            headers := mkHeaders options.headers v.eventType v.eventId } ] }

/-- Broker interactions of `publishBatch`, in order. -/
inductive PAction where
  | getProducerCall
  | sendCall (req : SendRequest)

structure BatchResult where
  result : Except String Unit
  actions : List PAction

/-- `events.map(e => EventSchema.parse({...e, eventId: uuidv4(), ...}))`:
event `i` receives `idGen i` as its fresh uuid; the map throws at the first
invalid event. -/
def enrichAll (idGen : Nat → String) (now : String) :
    List JsonVal → Nat → Except String (List Envelope)
  | [], _ => .ok []
  | e :: rest, i => do
      let v ← parseEnvelope (enrich e (idGen i) now)
      let tl ← enrichAll idGen now rest (i + 1)
      .ok (v :: tl)

/-- `options?.keyExtractor?.(event) || event.eventId`. -/
def batchKey (keyExtractor : Option (Envelope → String)) (v : Envelope) : String :=
  match keyExtractor with
  | some f => if f v == "" then v.eventId else f v
  | none => v.eventId

/-- `publishBatch(topic, events, options?)`: enriches and validates every
event, then performs `getProducer()` and one batched `producer.send` — with
no emptiness or size check of any kind.  The action trace records the broker
interactions; a thrown validation error leaves the trace empty. -/
def publishBatch (topic : String) (events : List JsonVal)
    (keyExtractor : Option (Envelope → String)) (idGen : Nat → String)
    (now : String) : BatchResult :=
  match enrichAll idGen now events 0 with
  | .error e => ⟨.error ("Failed to publish batch: " ++ e), []⟩
  | .ok vs =>
      ⟨.ok (), [.getProducerCall,
        .sendCall { topic := topic, gzip := true,
                    messages := vs.map (fun v =>
                      { key := batchKey keyExtractor v,
                        value := serializeEnvelope v,
                        partition := none,
                        headers := [("eventType", v.eventType), ("eventId", v.eventId)] }) }]⟩

/-! ## Circuit breaker (`kafka-client.ts`, class `CircuitBreaker`) -/

inductive BState where
  | closed
  | opened
  | halfOpen
deriving Repr, DecidableEq

structure Breaker where
  failures : Nat := 0
  lastFailureTime : Option Nat := none
  state : BState := .closed
deriving Repr, DecidableEq

def breakerThreshold : Nat := 5
def breakerTimeout : Nat := 60000

def Breaker.onSuccess (b : Breaker) : Breaker :=
  { b with failures := 0, state := .closed }

def Breaker.onFailure (b : Breaker) (now : Nat) : Breaker :=
  let f := b.failures + 1
  { b with failures := f, lastFailureTime := some now,
           state := if breakerThreshold ≤ f then .opened else b.state }

structure BExec where
  result : Except String Unit
  breaker : Breaker
  invoked : Bool
  halfOpenEntered : Bool

/-- `CircuitBreaker.execute(fn)` at wall-clock `now`; `fnResult` is the
outcome `fn` would produce if invoked.  `invoked` records whether `fn` ran,
`halfOpenEntered` whether the OPEN→HALF_OPEN probe transition was taken. -/
def Breaker.execute (b : Breaker) (now : Nat) (fnResult : Except String Unit) : BExec :=
  if b.state = .opened then
    if breakerTimeout < now - (b.lastFailureTime.getD 0) then
      let b1 : Breaker := { b with state := .halfOpen }
      match fnResult with
      | .ok _ => ⟨.ok (), b1.onSuccess, true, true⟩
      | .error e => ⟨.error e, b1.onFailure now, true, true⟩
    else ⟨.error "Circuit breaker is OPEN", b, false, false⟩
  else
    match fnResult with
    | .ok _ => ⟨.ok (), b.onSuccess, true, false⟩
    | .error e => ⟨.error e, b.onFailure now, true, false⟩

/-- Fold a sequence of `execute` calls (time, fn outcome) over a breaker. -/
def Breaker.runCalls (b : Breaker) (calls : List (Nat × Except String Unit)) : Breaker :=
  calls.foldl (fun st c => (st.execute c.1 c.2).breaker) b

/-! ## Connection manager (`kafka-client.ts`, class `KafkaClient`) -/

inductive ConnState where
  | disconnected
  | connecting
  | connected
  | disconnecting
  | errored
deriving Repr, DecidableEq

structure ProducerInst where
  id : Nat
  connected : Bool
deriving Repr, DecidableEq

structure ClientState where
  producer : Option ProducerInst := none
  consumers : List (String × Nat) := []
  admin : Option Nat := none
  isShuttingDown : Bool := false
  connectionState : ConnState := .disconnected
  breaker : Breaker := {}
  startTime : Nat := 0
  lastError : Option String := none
  nextId : Nat := 0
deriving Repr, DecidableEq

structure GetProducerResult where
  result : Except String ProducerInst
  client : ClientState
  breakerEntered : Bool
  connectAttempted : Bool

/-- `getProducer()`: fail fast when shutting down; return the cached
producer when the field is set; otherwise run the connect body inside
`circuitBreaker.execute`.  The body assigns `this.producer = kafka.producer(...)`
BEFORE awaiting `connect()`, so on a failed connect the field keeps the
never-connected instance.  `connectOutcome` is the outcome
`producer.connect()` would produce if attempted. -/
def getProducer (s : ClientState) (now : Nat) (connectOutcome : Except String Unit) :
    GetProducerResult :=
  if s.isShuttingDown then ⟨.error "Kafka client is shutting down", s, false, false⟩
  else
    match s.producer with
    | some p => ⟨.ok p, s, false, false⟩
    | none =>
      if s.breaker.state = .opened ∧ ¬ (breakerTimeout < now - (s.breaker.lastFailureTime.getD 0)) then
        ⟨.error "Circuit breaker is OPEN", s, true, false⟩
      else
        let b1 := if s.breaker.state = .opened then { s.breaker with state := BState.halfOpen }
                  else s.breaker
        match connectOutcome with
        | .ok _ =>
            let inst2 : ProducerInst := ⟨s.nextId, true⟩
            ⟨.ok inst2,
             { s with producer := some inst2, nextId := s.nextId + 1,
                      connectionState := .connected, breaker := b1.onSuccess }, true, true⟩
        | .error e =>
            ⟨.error e,
             { s with producer := some ⟨s.nextId, false⟩, nextId := s.nextId + 1,
                      connectionState := .errored, lastError := some e,
                      breaker := b1.onFailure now }, true, true⟩

/-- A sequence of `getProducer` calls, keeping only the evolving state. -/
def runGetProducerCalls (s : ClientState) (calls : List (Nat × Except String Unit)) :
    ClientState :=
  calls.foldl (fun st c => (getProducer st c.1 c.2).client) s

structure HealthMetrics where
  producerConnected : Bool
  consumerCount : Nat
  adminConnected : Bool
deriving Repr, DecidableEq

/-- The structured health result; `lastError`, `uptime` and `metrics` are
optional fields of the TS interface. -/
structure HealthCheckResult where
  isHealthy : Bool
  state : ConnState
  lastError : Option String
  uptime : Option Nat
  metrics : Option HealthMetrics
deriving Repr, DecidableEq

/-- `healthCheck()`: tries `getAdmin()` (fails fast when shutting down,
lazily connecting the admin handle otherwise) then `admin.listTopics()`;
`adminOutcome` is the combined outcome of those awaits.  Any failure is
caught and reported as an unhealthy result — the function never throws. -/
def healthCheck (s : ClientState) (adminOutcome : Except String Unit) (now : Nat) :
    HealthCheckResult × ClientState :=
  let eff : Except String Unit :=
    if s.isShuttingDown then .error "Kafka client is shutting down" else adminOutcome
  match eff with
  | .ok _ =>
      let s1 := match s.admin with
                | some _ => s
                | none => { s with admin := some s.nextId, nextId := s.nextId + 1 }
      (⟨true, s1.connectionState, none, some (now - s1.startTime),
        some ⟨s1.producer.isSome, s1.consumers.length, s1.admin.isSome⟩⟩, s1)
  | .error e =>
      (⟨false, s.connectionState, some e, none, none⟩, { s with lastError := some e })

/-! ## Consumer service (`kafka-consumer.service.ts`) -/

structure ConsumerConfig where
  topics : List String := []
  groupId : Option String := none
  fromBeginning : Option Bool := none
  autoCommit : Option Bool := none
  maxRetries : Option Nat := none
  enableDLQ : Option Bool := none

structure ConsumerMetrics where
  totalProcessed : Nat := 0
  totalFailed : Nat := 0
  totalRetries : Nat := 0
  lastProcessedAt : Option Nat := none
  averageProcessingTime : Nat := 0
deriving Repr, DecidableEq

structure ConsumerState where
  handlers : List (String × Nat) := []
  isRunning : Bool := false
  isPaused : Bool := false
  metrics : ConsumerMetrics := {}
  processingTimes : List Nat := []
deriving Repr, DecidableEq

/-- `Map.get` on the handler registry (`eventType → handler`); handlers are
identified by an abstract id. -/
def lookupHandler (hs : List (String × Nat)) (et : String) : Option Nat :=
  match hs with
  | [] => none
  | (n, h) :: rest => if n == et then some h else lookupHandler rest et

/-- `Map.set`: a later registration for the same eventType replaces the
earlier one. -/
def mapSet (hs : List (String × Nat)) (et : String) (h : Nat) : List (String × Nat) :=
  if hs.any (fun p => p.1 == et) then
    hs.map (fun p => if p.1 == et then (p.1, h) else p)
  else hs ++ [(et, h)]

def registerHandler (st : ConsumerState) (eventType : String) (h : Nat) : ConsumerState :=
  { st with handlers := mapSet st.handlers eventType h }

/-- A message as delivered by `eachMessage` (kafkajs `EachMessagePayload`). -/
structure IncomingMessage where
  topic : String
  partition : Int
  offset : String
  msgTimestamp : String
  value : Option RawBytes

/-- Observable actions of the consume path. -/
inductive CAction where
  | retryEnter
  | handlerRun (attempt : Nat)
  | sleepA (ms : Nat)
  | dlqAttempt (topic : String) (succeeded : Bool)
deriving Repr, DecidableEq

def CAction.isHandlerRun : CAction → Bool
  | .handlerRun _ => true
  | _ => false

def CAction.isRetryEnter : CAction → Bool
  | .retryEnter => true
  | _ => false

def CAction.isDlqAttempt : CAction → Bool
  | .dlqAttempt _ _ => true
  | _ => false

/-- `Math.min(1000 * Math.pow(2, attempt), 30000)`. -/
def backoffMs (attempt : Nat) : Nat := min (1000 * 2 ^ attempt) 30000

structure RetryOutcome where
  result : Except String Unit
  invocations : Nat
  delays : List Nat
  retries : Nat
  acts : List CAction

/-- The retry loop of `executeWithRetry` from a given attempt index:
invoke `fn`; on success return; on failure increment `metrics.totalRetries`
(the `retries` field counts those increments) and, if attempts remain, sleep
the backoff and continue, else re-raise the last error.  `fn i` is the
outcome of the handler on its i-th invocation. -/
def retryGo (fn : Nat → Except String Unit) : (remaining attempt : Nat) → RetryOutcome
  | 0, attempt =>
    match fn attempt with
    | .ok _ => ⟨.ok (), 1, [], 0, [.handlerRun attempt]⟩
    | .error e => ⟨.error e, 1, [], 1, [.handlerRun attempt]⟩
  | r + 1, attempt =>
    match fn attempt with
    | .ok _ => ⟨.ok (), 1, [], 0, [.handlerRun attempt]⟩
    | .error _ =>
      let rest := retryGo fn r (attempt + 1)
      ⟨rest.result, rest.invocations + 1, backoffMs attempt :: rest.delays, rest.retries + 1,
        .handlerRun attempt :: .sleepA (backoffMs attempt) :: rest.acts⟩

/-- `executeWithRetry(fn, maxRetries, event)`: the loop
`for (attempt = 0; attempt <= maxRetries; attempt++)` carried as the
number of attempts remaining (`remaining = maxRetries - attempt`, so the
guard `attempt < maxRetries` is `remaining > 0`). -/
def executeWithRetry (fn : Nat → Except String Unit) (maxRetries : Nat) : RetryOutcome :=
  retryGo fn maxRetries 0

/-- The event published to the dead-letter topic (`errorStack` is abstracted
away: stacks carry no structure the claims depend on). -/
def dlqEventJson (msg : IncomingMessage) (errText : String) : JsonVal :=
  .obj [("eventType", .str "dlq.message"), ("version", .str "1.0"),
        ("payload", .obj ([("originalTopic", .str msg.topic),
                           ("originalPartition", .num msg.partition),
                           ("originalOffset", .str msg.offset)]
          ++ (match msg.value with
              | some rb => [("originalMessage", .str rb.toStr)]
              | none => [])
          ++ [("error", .str errText)]))]

/-- `sendToDeadLetterQueue(payload, error)`: builds the DLQ record and
publishes it via `kafkaProducer.publishEvent` to the dead-letter topic; ANY
failure (validation or broker, `brokerOutcome` being the broker's verdict)
is caught and logged — the function returns normally in every case. -/
def sendToDeadLetterQueue (msg : IncomingMessage) (errText : String)
    (freshId now : String) (brokerOutcome : Except String Unit) :
    Except String Unit × List CAction :=
  match publishEvent DLQ_TOPIC (dlqEventJson msg errText) {} freshId now with
  | .error _ => (.ok (), [.dlqAttempt DLQ_TOPIC false])
  | .ok _req =>
      match brokerOutcome with
      | .ok _ => (.ok (), [.dlqAttempt DLQ_TOPIC true])
      | .error _ => (.ok (), [.dlqAttempt DLQ_TOPIC false])

def bumpFailed (st : ConsumerState) : ConsumerState :=
  { st with metrics := { st.metrics with totalFailed := st.metrics.totalFailed + 1 } }

def addRetries (st : ConsumerState) (n : Nat) : ConsumerState :=
  { st with metrics := { st.metrics with totalRetries := st.metrics.totalRetries + n } }

/-- `updateProcessingMetrics`: push the processing time, keep the last 100,
recompute the rolling average (integer division stands in for JS float
division; no claim depends on the value). -/
def updateProcessingMetrics (st : ConsumerState) (t : Nat) : ConsumerState :=
  let times0 := st.processingTimes ++ [t]
  let times := if 100 < times0.length then times0.tail else times0
  { st with processingTimes := times,
            metrics := { st.metrics with averageProcessingTime := times.sum / times.length } }

def recordSuccess (st : ConsumerState) (now procTime : Nat) : ConsumerState :=
  let st1 := { st with metrics :=
    { st.metrics with totalProcessed := st.metrics.totalProcessed + 1,
                      lastProcessedAt := some now } }
  updateProcessingMetrics st1 procTime

/-- `if (config.enableDLQ !== false) await this.sendToDeadLetterQueue(...)`. -/
def dlqIfEnabled (st : ConsumerState) (cfg : ConsumerConfig) (msg : IncomingMessage)
    (errText : String) (dlqId dlqNow : String) (dlqBroker : Except String Unit) :
    ConsumerState × List CAction :=
  if cfg.enableDLQ == some false then (st, [])
  else (st, (sendToDeadLetterQueue msg errText dlqId dlqNow dlqBroker).2)

/-- `handleMessage(payload, config)`: skip empty values; parse and validate
(`JSON.parse` then `EventSchema.parse`); look up the handler (none ⇒ log and
skip); run it through `executeWithRetry`; on success update the success
metrics; any thrown error is caught, `totalFailed` incremented and the
message routed to the DLQ unless `enableDLQ === false`.  `handlerFn i` is the
outcome of the registered handler on its i-th invocation for this message;
`dlqId`/`dlqNow`/`dlqBroker` feed a dead-letter publish if one happens. -/
def handleMessage (st : ConsumerState) (cfg : ConsumerConfig) (msg : IncomingMessage)
    (handlerFn : Nat → Except String Unit) (dlqId dlqNow : String)
    (dlqBroker : Except String Unit) (now procTime : Nat) :
    ConsumerState × List CAction :=
  match msg.value with
  | none => (st, [])
  | some raw =>
    match (jsonParse raw).bind parseEnvelope with
    | .error e => dlqIfEnabled (bumpFailed st) cfg msg e dlqId dlqNow dlqBroker
    | .ok ev =>
      match lookupHandler st.handlers ev.eventType with
      | none => (st, [])
      | some _h =>
        let r := executeWithRetry handlerFn (cfg.maxRetries.getD 3)
        let st1 := addRetries st r.retries
        match r.result with
        | .ok _ => (recordSuccess st1 now procTime, .retryEnter :: r.acts)
        | .error e =>
          let d := dlqIfEnabled (bumpFailed st1) cfg msg e dlqId dlqNow dlqBroker
          (d.1, (.retryEnter :: r.acts) ++ d.2)

def pause (st : ConsumerState) : ConsumerState := { st with isPaused := true }

def resume (st : ConsumerState) : ConsumerState := { st with isPaused := false }

/-- `stop()`: returns immediately when not running, else only clears the
`isRunning` flag.  The (empty) action list records that no broker
interaction of any kind is performed. -/
def stop (st : ConsumerState) : ConsumerState × List CAction :=
  if st.isRunning then ({ st with isRunning := false }, []) else (st, [])

/-- `while (this.isPaused) await this.sleep(100)`: poll the paused flag every
100 ms starting at `t`; returns the first polled instant at which the flag is
clear, `none` when it stays set for all `fuel` polls (the loop would still be
sleeping). `paused` is the flag's value over time, as set by
`pause()`/`resume()`. -/
def pollPaused (paused : Nat → Bool) : Nat → Nat → Option Nat
  | 0, _ => none
  | fuel + 1, t => if paused t then pollPaused paused fuel (t + 100) else some t

/-- The `eachMessage` callback installed by `start(config)`: wait out the
paused flag, then dispatch the message through `handleMessage`.  `none`
means the handler was never reached (still blocked after `fuel` polls). -/
def eachMessage (paused : Nat → Bool) (fuel t0 : Nat) (st : ConsumerState)
    (cfg : ConsumerConfig) (msg : IncomingMessage) (handlerFn : Nat → Except String Unit)
    (dlqId dlqNow : String) (dlqBroker : Except String Unit) (now procTime : Nat) :
    Option (ConsumerState × List CAction) :=
  match pollPaused paused fuel t0 with
  | none => none
  | some _ => some (handleMessage st cfg msg handlerFn dlqId dlqNow dlqBroker now procTime)

/-! # Theorems

## Shared concrete fixtures -/

def uuidA : String := "123e4567-e89b-12d3-a456-426614174000"
def tsA : String := "2026-10-11T12:00:00.000Z"

/-- A caller-supplied `user.created` event (no `eventId`/`timestamp`). -/
def evJson : JsonVal :=
  .obj [("eventType", .str "user.created"),
        ("payload", .obj [("userId", .str "u1"), ("email", .str "a@b.com"), ("name", .str "A")])]

/-- The envelope `evJson` validates to after enrichment with `uuidA`/`tsA`. -/
def vA : Envelope := ⟨uuidA, "user.created", tsA, "1.0", none, .userCreated "u1" "a@b.com" "A"⟩

theorem parse_evJson : parseEnvelope (enrich evJson uuidA tsA) = .ok vA := rfl

/-! ## C1: publishBatch -/

theorem enrichAll_length (idGen : Nat → String) (now : String) :
    ∀ (events : List JsonVal) (i : Nat) (vs : List Envelope),
      enrichAll idGen now events i = .ok vs → vs.length = events.length := by
  intro events
  induction events with
  | nil =>
    intro i vs h
    simp only [enrichAll] at h
    cases h
    rfl
  | cons e rest ih =>
    intro i vs h
    simp only [enrichAll, bind, Except.bind] at h
    cases hp : parseEnvelope (enrich e (idGen i) now) with
    | error err => rw [hp] at h; cases h
    | ok v =>
      rw [hp] at h
      cases ht : enrichAll idGen now rest (i + 1) with
      | error err => rw [ht] at h; cases h
      | ok tl =>
        rw [ht] at h
        cases h
        simp [ih (i + 1) tl ht]

theorem publishBatch_ok_shape (topic : String) (events : List JsonVal)
    (kx : Option (Envelope → String)) (idGen : Nat → String) (now : String)
    (vs : List Envelope) (h : enrichAll idGen now events 0 = .ok vs) :
    publishBatch topic events kx idGen now =
      ⟨.ok (), [.getProducerCall, .sendCall ⟨topic, true, vs.map (fun v =>
        ⟨batchKey kx v, serializeEnvelope v, none,
         [("eventType", v.eventType), ("eventId", v.eventId)]⟩)⟩]⟩ := by
  simp [publishBatch, h]

theorem publishBatch_error_shape (topic : String) (events : List JsonVal)
    (kx : Option (Envelope → String)) (idGen : Nat → String) (now : String)
    (err : String) (h : enrichAll idGen now events 0 = .error err) :
    publishBatch topic events kx idGen now =
      ⟨.error ("Failed to publish batch: " ++ err), []⟩ := by
  simp [publishBatch, h]

theorem enrichAll_replicate (e : JsonVal) (u now : String) (v : Envelope)
    (h : parseEnvelope (enrich e u now) = .ok v) :
    ∀ (n i : Nat),
      enrichAll (fun _ => u) now (List.replicate n e) i = .ok (List.replicate n v) := by
  intro n
  induction n with
  | zero => intro i; rfl
  | succ m ih =>
    intro i
    simp only [List.replicate_succ, enrichAll, bind, Except.bind, h, ih (i + 1)]

/-- **C1** (amended): `publishBatch` performs no emptiness or size guardrail:
for every events list — the empty list and lists exceeding 1,000 events
included — whose events all validate after enrichment, it performs the
`getProducer` call and one batched broker send containing one message per
event; it throws only when some event fails validation, and only then does
no broker call happen. -/
theorem C1_publishBatch_no_guardrails :
    (∀ (topic : String) (events : List JsonVal) (kx : Option (Envelope → String))
       (idGen : Nat → String) (now : String) (vs : List Envelope),
       enrichAll idGen now events 0 = .ok vs →
       ∃ req : SendRequest,
         publishBatch topic events kx idGen now =
           ⟨.ok (), [.getProducerCall, .sendCall req]⟩ ∧
         req.topic = topic ∧ req.messages.length = events.length) ∧
    (∀ (topic : String) (events : List JsonVal) (kx : Option (Envelope → String))
       (idGen : Nat → String) (now : String) (err : String),
       enrichAll idGen now events 0 = .error err →
       publishBatch topic events kx idGen now =
         ⟨.error ("Failed to publish batch: " ++ err), []⟩) := by
  constructor
  · intro topic events kx idGen now vs h
    refine ⟨_, publishBatch_ok_shape topic events kx idGen now vs h, rfl, ?_⟩
    simp [enrichAll_length idGen now events 0 vs h]
  · intro topic events kx idGen now err h
    exact publishBatch_error_shape topic events kx idGen now err h

/-- **C1** counterexample: `publishBatch(topic, [])` does NOT reject the
empty batch — it performs the `getProducer` call and a broker send with zero
messages; and a 1,001-event batch does NOT throw — it is enriched,
validated, and sent as a single 1,001-message request. -/
theorem C1_counterexample :
    ((publishBatch USER_EVENTS [] none (fun _ => uuidA) tsA).result = .ok () ∧
     (publishBatch USER_EVENTS [] none (fun _ => uuidA) tsA).actions =
       [.getProducerCall, .sendCall ⟨USER_EVENTS, true, []⟩]) ∧
    ((publishBatch USER_EVENTS (List.replicate 1001 evJson) none
        (fun _ => uuidA) tsA).result = .ok () ∧
     ∃ req : SendRequest,
       (publishBatch USER_EVENTS (List.replicate 1001 evJson) none
          (fun _ => uuidA) tsA).actions = [.getProducerCall, .sendCall req] ∧
       req.messages.length = 1001) := by
  have h := publishBatch_ok_shape USER_EVENTS (List.replicate 1001 evJson) none
    (fun _ => uuidA) tsA (List.replicate 1001 vA)
    (enrichAll_replicate evJson uuidA tsA vA parse_evJson 1001 0)
  refine ⟨⟨rfl, rfl⟩, ?_, ?_⟩
  · rw [h]
  · exact ⟨_, by rw [h], by simp only [List.length_map, List.length_replicate]⟩

/-- **C1** witness: the amended theorem applied to a one-event valid batch
and to a one-event invalid batch. -/
theorem C1_witness :
    (enrichAll (fun _ => uuidA) tsA [evJson] 0 = .ok [vA]) ∧
    (∃ req : SendRequest,
       publishBatch USER_EVENTS [evJson] none (fun _ => uuidA) tsA =
         ⟨.ok (), [.getProducerCall, .sendCall req]⟩ ∧
       req.topic = USER_EVENTS ∧ req.messages.length = 1) ∧
    (enrichAll (fun _ => uuidA) tsA [JsonVal.null] 0 =
       .error "expected string field eventType") ∧
    (publishBatch USER_EVENTS [JsonVal.null] none (fun _ => uuidA) tsA =
       ⟨.error ("Failed to publish batch: " ++ "expected string field eventType"), []⟩) :=
  ⟨rfl, C1_publishBatch_no_guardrails.1 USER_EVENTS [evJson] none (fun _ => uuidA) tsA [vA] rfl,
   rfl, C1_publishBatch_no_guardrails.2 USER_EVENTS [JsonVal.null] none (fun _ => uuidA) tsA
     "expected string field eventType" rfl⟩

/-! ## C2: executeWithRetry -/

theorem retryGo_invocations_le (fn : Nat → Except String Unit) :
    ∀ (r a : Nat), (retryGo fn r a).invocations ≤ r + 1 := by
  intro r
  induction r with
  | zero => intro a; unfold retryGo; cases fn a <;> simp
  | succ m ih =>
    intro a
    unfold retryGo
    cases fn a with
    | ok _ => simp
    | error e =>
      simp only []
      exact Nat.succ_le_succ (ih (a + 1))

theorem retryGo_succeeds (fn : Nat → Except String Unit) :
    ∀ (k r a : Nat), k ≤ r →
      (∀ i, i < k → ∃ msg, fn (a + i) = .error msg) →
      fn (a + k) = .ok () →
      (retryGo fn r a).result = .ok () ∧
      (retryGo fn r a).invocations = k + 1 ∧
      (retryGo fn r a).delays = (List.range k).map (fun i => backoffMs (a + i)) ∧
      (retryGo fn r a).retries = k := by
  intro k
  induction k with
  | zero =>
    intro r a _ _ hok
    rw [Nat.add_zero] at hok
    cases r <;> (unfold retryGo; rw [hok]; simp)
  | succ m ih =>
    intro r a hle hfail hok
    obtain ⟨msg, hmsg⟩ := hfail 0 (Nat.succ_pos m)
    rw [Nat.add_zero] at hmsg
    obtain ⟨r1, rfl⟩ : ∃ r1, r = r1 + 1 := ⟨r - 1, by omega⟩
    have hrec := ih r1 (a + 1) (by omega)
      (fun i hi => by
        obtain ⟨msg2, h2⟩ := hfail (i + 1) (by omega)
        exact ⟨msg2, by rw [← h2]; congr 1; omega⟩)
      (by rw [← hok]; congr 1; omega)
    unfold retryGo
    rw [hmsg]
    simp only []
    refine ⟨hrec.1, by rw [hrec.2.1], ?_, by rw [hrec.2.2.2]⟩
    rw [hrec.2.2.1, List.range_succ_eq_map]
    simp only [List.map_cons, List.map_map, Nat.add_zero]
    congr 1
    apply List.map_congr_left
    intro i _
    simp only [Function.comp_apply]
    congr 1
    omega

theorem retryGo_all_fail (fn : Nat → Except String Unit) :
    ∀ (r a : Nat), (∀ i, i ≤ r → ∃ msg, fn (a + i) = .error msg) →
      (retryGo fn r a).result = fn (a + r) ∧
      (retryGo fn r a).invocations = r + 1 ∧
      (retryGo fn r a).delays = (List.range r).map (fun i => backoffMs (a + i)) ∧
      (retryGo fn r a).retries = r + 1 := by
  intro r
  induction r with
  | zero =>
    intro a hfail
    obtain ⟨msg, hmsg⟩ := hfail 0 (Nat.le_refl 0)
    rw [Nat.add_zero] at hmsg
    unfold retryGo
    rw [hmsg]
    simp [hmsg]
  | succ m ih =>
    intro a hfail
    obtain ⟨msg, hmsg⟩ := hfail 0 (Nat.zero_le _)
    rw [Nat.add_zero] at hmsg
    have hrec := ih (a + 1) (fun i hi => by
      obtain ⟨msg2, h2⟩ := hfail (i + 1) (by omega)
      exact ⟨msg2, by rw [← h2]; congr 1; omega⟩)
    unfold retryGo
    rw [hmsg]
    simp only []
    refine ⟨by rw [hrec.1]; congr 1; omega, by rw [hrec.2.1], ?_, by rw [hrec.2.2.2]⟩
    rw [hrec.2.2.1, List.range_succ_eq_map]
    simp only [List.map_cons, List.map_map, Nat.add_zero]
    congr 1
    apply List.map_congr_left
    intro i _
    simp only [Function.comp_apply]
    congr 1
    omega

/-- **C2** (amended): `executeWithRetry(fn, maxRetries, event)` invokes `fn`
at most `maxRetries + 1` times, waiting `min(1000 × 2^attempt, 30000)` ms
between attempts, and re-raises the last error on final exhaustion; the
retry counter (`metrics.totalRetries`) is incremented on every FAILED
attempt — including the final one — so on exhaustion it increases by
`maxRetries + 1`, not by the number of attempts beyond the first.  For an
`fn` failing exactly `k ≤ maxRetries` times before succeeding, `fn` runs
`k + 1` times with delays `1000·2^0, …, 1000·2^(k-1)` (capped) and the
counter increases by exactly `k` — in particular 3 invocations, delays
1000 ms and 2000 ms, and counter +2 for `k = 2`. -/
theorem C2_executeWithRetry :
    (∀ (fn : Nat → Except String Unit) (maxRetries : Nat),
       (executeWithRetry fn maxRetries).invocations ≤ maxRetries + 1) ∧
    (∀ (fn : Nat → Except String Unit) (maxRetries k : Nat),
       k ≤ maxRetries →
       (∀ i, i < k → ∃ msg, fn i = .error msg) →
       fn k = .ok () →
       (executeWithRetry fn maxRetries).result = .ok () ∧
       (executeWithRetry fn maxRetries).invocations = k + 1 ∧
       (executeWithRetry fn maxRetries).delays =
         (List.range k).map (fun i => min (1000 * 2 ^ i) 30000) ∧
       (executeWithRetry fn maxRetries).retries = k) ∧
    (∀ (fn : Nat → Except String Unit) (maxRetries : Nat),
       (∀ i, i ≤ maxRetries → ∃ msg, fn i = .error msg) →
       (executeWithRetry fn maxRetries).result = fn maxRetries ∧
       (executeWithRetry fn maxRetries).invocations = maxRetries + 1 ∧
       (executeWithRetry fn maxRetries).delays =
         (List.range maxRetries).map (fun i => min (1000 * 2 ^ i) 30000) ∧
       (executeWithRetry fn maxRetries).retries = maxRetries + 1) := by
  refine ⟨?_, ?_, ?_⟩
  · intro fn maxRetries
    exact retryGo_invocations_le fn maxRetries 0
  · intro fn maxRetries k hk hfail hok
    have h := retryGo_succeeds fn k maxRetries 0 hk
      (fun i hi => by simpa using hfail i hi) (by simpa using hok)
    simpa [executeWithRetry, backoffMs] using h
  · intro fn maxRetries hfail
    have h := retryGo_all_fail fn maxRetries 0
      (fun i hi => by simpa using hfail i hi)
    simpa [executeWithRetry, backoffMs] using h

/-- An always-failing handler. -/
def fnBoom : Nat → Except String Unit := fun _ => .error "boom"

/-- **C2** counterexample: with `maxRetries = 1` and an always-failing `fn`,
`fn` is invoked twice — one attempt beyond the first — yet the retry counter
increases by 2: the code increments it on every caught error, including the
final exhausting attempt, so "incrementing the retry counter on every
attempt beyond the first" does not hold. -/
theorem C2_counterexample :
    (executeWithRetry fnBoom 1).invocations = 2 ∧
    (executeWithRetry fnBoom 1).retries = 2 ∧
    ¬ ((executeWithRetry fnBoom 1).retries =
       (executeWithRetry fnBoom 1).invocations - 1) :=
  ⟨rfl, rfl, by decide⟩

/-- The handler of the spec scenario: fails on its first two invocations,
succeeds on the third. -/
def fnTwice : Nat → Except String Unit := fun i => if i < 2 then .error "transient" else .ok ()

/-- **C2** witness: the amended theorem at the spec's scenario (fails twice,
succeeds on the third attempt, default `maxRetries = 3`) and at a concrete
exhaustion. -/
theorem C2_witness :
    ((2 ≤ 3) ∧ (∀ i, i < 2 → ∃ msg, fnTwice i = .error msg) ∧ fnTwice 2 = .ok () ∧
     (executeWithRetry fnTwice 3).result = .ok () ∧
     (executeWithRetry fnTwice 3).invocations = 3 ∧
     (executeWithRetry fnTwice 3).delays = [1000, 2000] ∧
     (executeWithRetry fnTwice 3).retries = 2) ∧
    ((∀ i, i ≤ 1 → ∃ msg, fnBoom i = .error msg) ∧
     (executeWithRetry fnBoom 1).retries = 1 + 1) := by
  have hfail : ∀ i, i < 2 → ∃ msg, fnTwice i = .error msg := by
    intro i hi
    exact ⟨"transient", by unfold fnTwice; rw [if_pos hi]⟩
  have h := C2_executeWithRetry.2.1 fnTwice 3 2 (by omega) hfail rfl
  have hboomfail : ∀ i, i ≤ 1 → ∃ msg, fnBoom i = .error msg :=
    fun i _ => ⟨"boom", rfl⟩
  have h2 := C2_executeWithRetry.2.2 fnBoom 1 hboomfail
  refine ⟨⟨by omega, hfail, rfl, h.1, h.2.1, ?_, h.2.2.2⟩, hboomfail, h2.2.2.2⟩
  rw [h.2.2.1]
  rfl

/-! ## C5: sendToDeadLetterQueue swallows all errors -/

theorem sendToDLQ_shape (msg : IncomingMessage) (errText freshId now : String)
    (brokerOutcome : Except String Unit) :
    (sendToDeadLetterQueue msg errText freshId now brokerOutcome).1 = .ok () ∧
    ∃ ok, (sendToDeadLetterQueue msg errText freshId now brokerOutcome).2 =
      [.dlqAttempt DLQ_TOPIC ok] := by
  unfold sendToDeadLetterQueue
  cases publishEvent DLQ_TOPIC (dlqEventJson msg errText) {} freshId now with
  | error e => exact ⟨rfl, false, rfl⟩
  | ok req =>
    cases brokerOutcome with
    | ok u => exact ⟨rfl, true, rfl⟩
    | error e => exact ⟨rfl, false, rfl⟩

/-- **C5**: `sendToDeadLetterQueue(payload, error)` never propagates an
error: whatever the payload, the error text, the enrichment inputs and the
outcome of the underlying `publishEvent` to the dead-letter topic, it
returns normally (result `ok`), having made exactly one dead-letter publish
attempt — so a dead-letter write failure cannot crash or stall the
consumption loop. -/
theorem C5_sendToDeadLetterQueue_never_propagates :
    ∀ (msg : IncomingMessage) (errText freshId now : String)
      (brokerOutcome : Except String Unit),
      (sendToDeadLetterQueue msg errText freshId now brokerOutcome).1 = .ok () ∧
      ∃ ok, (sendToDeadLetterQueue msg errText freshId now brokerOutcome).2 =
        [.dlqAttempt DLQ_TOPIC ok] :=
  fun msg e f n b => sendToDLQ_shape msg e f n b

/-! ## C7: healthCheck -/

/-- **C7** (amended): `healthCheck()` never throws and `isHealthy` is true
exactly when the admin list-topics call succeeded (and the client is not
shutting down); BUT the structured result carries `uptime` and `metrics`
only in the healthy case — the unhealthy result is
`{isHealthy: false, state, lastError}` with `uptime` and `metrics` omitted.
In the healthy case `adminConnected` is always true (the admin handle was
just lazily connected). -/
theorem C7_healthCheck_shape :
    ∀ (s : ClientState) (out : Except String Unit) (now : Nat),
      ((healthCheck s out now).1.isHealthy = true ↔
         (s.isShuttingDown = false ∧ out = .ok ())) ∧
      (s.isShuttingDown = false → out = .ok () →
        (healthCheck s out now).1 =
          ⟨true, s.connectionState, none, some (now - s.startTime),
           some ⟨s.producer.isSome, s.consumers.length, true⟩⟩) ∧
      (∀ e, s.isShuttingDown = false → out = .error e →
        (healthCheck s out now).1 = ⟨false, s.connectionState, some e, none, none⟩) ∧
      (s.isShuttingDown = true →
        (healthCheck s out now).1 =
          ⟨false, s.connectionState, some "Kafka client is shutting down", none, none⟩) := by
  intro s out now
  unfold healthCheck
  cases hsd : s.isShuttingDown with
  | true => simp [hsd]
  | false =>
    cases out with
    | ok u =>
      cases u
      cases ha : s.admin <;> simp [hsd, ha]
    | error e => simp [hsd]

/-- **C7** counterexample: when the admin list-topics call fails, the result
omits `uptime` and `metrics` — so the claim that every result contains
`isHealthy, state, uptime, metrics` is false on the unhealthy path. -/
theorem C7_counterexample :
    (healthCheck {} (.error "boom") 5).1.isHealthy = false ∧
    (healthCheck {} (.error "boom") 5).1.uptime = none ∧
    (healthCheck {} (.error "boom") 5).1.metrics = none :=
  ⟨rfl, rfl, rfl⟩

/-- **C7** witness: the amended theorem at a fresh client with a succeeding
and with a failing admin call. -/
theorem C7_witness :
    (({} : ClientState).isShuttingDown = false) ∧
    ((healthCheck {} (.ok ()) 5).1.isHealthy = true ↔
       (({} : ClientState).isShuttingDown = false ∧
        (Except.ok () : Except String Unit) = .ok ())) ∧
    ((healthCheck {} (.ok ()) 5).1 =
       ⟨true, ConnState.disconnected, none, some 5, some ⟨false, 0, true⟩⟩) ∧
    ((healthCheck {} (.error "boom") 7).1 =
       ⟨false, ConnState.disconnected, some "boom", none, none⟩) := by
  have h := C7_healthCheck_shape {} (.ok ()) 5
  have h2 := C7_healthCheck_shape {} (.error "boom") 7
  exact ⟨rfl, h.1, h.2.1 rfl rfl, h2.2.2.1 "boom" rfl rfl⟩

/-! ## C4: schema-invalid messages go straight to the DLQ -/

/-- **C4**: on the consume path, a message whose value fails parsing or
tagged-union schema validation is — when DLQ routing is enabled
(`enableDLQ !== false`) — routed directly to the dead-letter topic: the
trace is exactly one dead-letter publish attempt, with no handler
invocation and no entry into `executeWithRetry`, and `totalFailed` is
incremented once. -/
theorem C4_invalid_message_straight_to_dlq :
    ∀ (st : ConsumerState) (cfg : ConsumerConfig) (msg : IncomingMessage) (raw : RawBytes)
      (handlerFn : Nat → Except String Unit) (dlqId dlqNow : String)
      (dlqBroker : Except String Unit) (now procTime : Nat) (e : String),
      msg.value = some raw →
      (jsonParse raw).bind parseEnvelope = .error e →
      cfg.enableDLQ ≠ some false →
      (∃ ok, (handleMessage st cfg msg handlerFn dlqId dlqNow dlqBroker now procTime).2 =
         [.dlqAttempt DLQ_TOPIC ok]) ∧
      ((handleMessage st cfg msg handlerFn dlqId dlqNow dlqBroker now procTime).2.all
         (fun a => !a.isHandlerRun && !a.isRetryEnter)) = true ∧
      (handleMessage st cfg msg handlerFn dlqId dlqNow dlqBroker now procTime).1.metrics.totalFailed
        = st.metrics.totalFailed + 1 := by
  intro st cfg msg raw f dlqId dlqNow br t p e hv hp hd
  have hb : (cfg.enableDLQ == some false) = false := by
    cases hcd : cfg.enableDLQ with
    | none => rfl
    | some bb =>
      cases bb with
      | false => exact absurd hcd hd
      | true => rfl
  obtain ⟨okb, hacts⟩ := (sendToDLQ_shape msg e dlqId dlqNow br).2
  simp only [handleMessage, hv, hp, dlqIfEnabled, hb, Bool.false_eq_true, if_false, hacts]
  exact ⟨⟨okb, rfl⟩, by cases okb <;> rfl, rfl⟩

/-- **C4** witness: a non-JSON message value with DLQ enabled. -/
theorem C4_witness :
    ((⟨USER_EVENTS, 0, "42", "t0", some (.rawText "junk")⟩ : IncomingMessage).value =
       some (.rawText "junk")) ∧
    ((jsonParse (.rawText "junk")).bind parseEnvelope =
       .error "Unexpected token in JSON") ∧
    ((⟨[], none, none, none, none, some true⟩ : ConsumerConfig).enableDLQ ≠ some false) ∧
    ((∃ ok, (handleMessage {} ⟨[], none, none, none, none, some true⟩
        ⟨USER_EVENTS, 0, "42", "t0", some (.rawText "junk")⟩ fnBoom uuidA tsA (.ok ()) 0 0).2 =
        [.dlqAttempt DLQ_TOPIC ok]) ∧
     ((handleMessage {} ⟨[], none, none, none, none, some true⟩
        ⟨USER_EVENTS, 0, "42", "t0", some (.rawText "junk")⟩ fnBoom uuidA tsA (.ok ()) 0 0).2.all
        (fun a => !a.isHandlerRun && !a.isRetryEnter)) = true ∧
     (handleMessage {} ⟨[], none, none, none, none, some true⟩
        ⟨USER_EVENTS, 0, "42", "t0", some (.rawText "junk")⟩ fnBoom uuidA tsA (.ok ()) 0 0).1.metrics.totalFailed
       = ({} : ConsumerState).metrics.totalFailed + 1) := by
  refine ⟨rfl, rfl, by decide, ?_⟩
  exact C4_invalid_message_straight_to_dlq {} ⟨[], none, none, none, none, some true⟩
    ⟨USER_EVENTS, 0, "42", "t0", some (.rawText "junk")⟩ (.rawText "junk") fnBoom uuidA tsA
    (.ok ()) 0 0 "Unexpected token in JSON" rfl rfl (by decide)

/-! ## C10: stop() only clears the flag -/

theorem stop_eq (st : ConsumerState) : stop st = ({ st with isRunning := false }, []) := by
  obtain ⟨hs, run, ps, ms, pts⟩ := st
  cases run <;> rfl

set_option maxRecDepth 8000 in
theorem handleMessage_ignores_isRunning (st : ConsumerState) (b : Bool)
    (cfg : ConsumerConfig) (msg : IncomingMessage) (f : Nat → Except String Unit)
    (dlqId dlqNow : String) (br : Except String Unit) (t p : Nat) :
    handleMessage { st with isRunning := b } cfg msg f dlqId dlqNow br t p =
      ({ (handleMessage st cfg msg f dlqId dlqNow br t p).1 with isRunning := b },
       (handleMessage st cfg msg f dlqId dlqNow br t p).2) := by
  obtain ⟨hs, run, ps, ms, pts⟩ := st
  cases hv : msg.value with
  | none => simp only [handleMessage, hv]
  | some raw =>
    cases hp : (jsonParse raw).bind parseEnvelope with
    | error e =>
      cases hb : cfg.enableDLQ == some false with
      | true =>
        simp only [handleMessage, hv, hp, dlqIfEnabled, hb, if_true]
        rfl
      | false =>
        simp only [handleMessage, hv, hp, dlqIfEnabled, hb, Bool.false_eq_true, if_false]
        rfl
    | ok ev =>
      cases hl : lookupHandler hs ev.eventType with
      | none => simp only [handleMessage, hv, hp, hl]
      | some h =>
        cases hr : (executeWithRetry f (cfg.maxRetries.getD 3)).result with
        | ok u =>
          simp only [handleMessage, hv, hp, hl, hr]
          rfl
        | error e =>
          cases hb : cfg.enableDLQ == some false with
          | true =>
            simp only [handleMessage, hv, hp, hl, hr, dlqIfEnabled, hb, if_true]
            rfl
          | false =>
            simp only [handleMessage, hv, hp, hl, hr, dlqIfEnabled, hb,
              Bool.false_eq_true, if_false]
            rfl

/-- **C10**: `stop()` only sets the `isRunning` flag to false — a no-op when
it is already false — performs no broker interaction (empty action trace,
no unsubscribe/disconnect), leaves the handler registry, metrics, paused
flag and processing times unchanged, and does not affect message dispatch:
`handleMessage` behaves identically (same trace, same metric updates) on the
stopped state. -/
theorem C10_stop_only_clears_flag :
    (∀ st : ConsumerState, st.isRunning = false → stop st = (st, [])) ∧
    (∀ st : ConsumerState, stop st = ({ st with isRunning := false }, [])) ∧
    (∀ st : ConsumerState,
       (stop st).1.handlers = st.handlers ∧ (stop st).1.metrics = st.metrics ∧
       (stop st).1.isPaused = st.isPaused ∧
       (stop st).1.processingTimes = st.processingTimes ∧ (stop st).2 = []) ∧
    (∀ (st : ConsumerState) (cfg : ConsumerConfig) (msg : IncomingMessage)
       (f : Nat → Except String Unit) (dlqId dlqNow : String) (br : Except String Unit)
       (t p : Nat),
       handleMessage (stop st).1 cfg msg f dlqId dlqNow br t p =
         ({ (handleMessage st cfg msg f dlqId dlqNow br t p).1 with isRunning := false },
          (handleMessage st cfg msg f dlqId dlqNow br t p).2)) := by
  refine ⟨?_, stop_eq, ?_, ?_⟩
  · intro st h
    obtain ⟨hs, run, ps, ms, pts⟩ := st
    simp only at h
    subst h
    rfl
  · intro st
    rw [stop_eq st]
    exact ⟨rfl, rfl, rfl, rfl, rfl⟩
  · intro st cfg msg f dlqId dlqNow br t p
    rw [stop_eq st]
    exact handleMessage_ignores_isRunning st false cfg msg f dlqId dlqNow br t p

/-- **C10** witness: `stop` on a never-started consumer is a pure no-op. -/
theorem C10_witness :
    (({} : ConsumerState).isRunning = false) ∧ stop {} = ({}, []) :=
  ⟨rfl, C10_stop_only_clears_flag.1 {} rfl⟩

/-! ## C9: a failed first connect caches the unconnected producer -/

/-- **C9**: if the initial `getProducer()` connect attempt fails, the
`producer` field has already been assigned the never-connected instance
before the failing await, and the breaker records exactly one failure
(staying CLOSED); every subsequent `getProducer()` call while not shutting
down returns that same unconnected instance immediately, without entering
the circuit breaker and without a connect attempt, leaving the client state
untouched — so repeated calls after one failed connect can never accumulate
the 5 failures needed to open the breaker. -/
theorem C9_getProducer_failed_connect :
    ∀ (s : ClientState) (now : Nat) (e : String),
      s.isShuttingDown = false → s.producer = none → s.breaker = {} →
      (getProducer s now (.error e)).result = .error e ∧
      (getProducer s now (.error e)).breakerEntered = true ∧
      (getProducer s now (.error e)).connectAttempted = true ∧
      (getProducer s now (.error e)).client.producer = some ⟨s.nextId, false⟩ ∧
      (getProducer s now (.error e)).client.breaker.failures = 1 ∧
      (getProducer s now (.error e)).client.breaker.state = .closed ∧
      (∀ (now2 : Nat) (out2 : Except String Unit),
         getProducer (getProducer s now (.error e)).client now2 out2 =
           ⟨.ok ⟨s.nextId, false⟩, (getProducer s now (.error e)).client, false, false⟩) ∧
      (∀ calls, runGetProducerCalls (getProducer s now (.error e)).client calls =
         (getProducer s now (.error e)).client) ∧
      (∀ calls,
         (runGetProducerCalls (getProducer s now (.error e)).client calls).breaker.state ≠
           .opened) := by
  intro s now e hsd hp hb
  have hred : getProducer s now (.error e) = ⟨.error e,
      { s with producer := some ⟨s.nextId, false⟩, nextId := s.nextId + 1,
               connectionState := .errored, lastError := some e,
               breaker := Breaker.onFailure {} now }, true, true⟩ := by
    unfold getProducer
    rw [hb]
    simp [hsd, hp]
  have hsub : ∀ (now2 : Nat) (out2 : Except String Unit),
      getProducer (getProducer s now (.error e)).client now2 out2 =
        ⟨.ok ⟨s.nextId, false⟩, (getProducer s now (.error e)).client, false, false⟩ := by
    intro now2 out2
    rw [hred]
    unfold getProducer
    simp [hsd]
  have hfix : ∀ calls, runGetProducerCalls (getProducer s now (.error e)).client calls =
      (getProducer s now (.error e)).client := by
    intro calls
    induction calls with
    | nil => rfl
    | cons c rest ih =>
      simp only [runGetProducerCalls, List.foldl_cons] at ih ⊢
      rw [hsub c.1 c.2]
      exact ih
  refine ⟨by rw [hred], by rw [hred], by rw [hred], by rw [hred], ?_, ?_, hsub, hfix, ?_⟩
  · rw [hred]
    rfl
  · rw [hred]
    rfl
  · intro calls
    rw [hfix calls, hred]
    simp [Breaker.onFailure, breakerThreshold]

/-- **C9** witness: the theorem at a fresh client whose first connect fails,
followed by three further calls (whatever their would-be outcomes). -/
theorem C9_witness :
    (({} : ClientState).isShuttingDown = false ∧ ({} : ClientState).producer = none ∧
     ({} : ClientState).breaker = {}) ∧
    (getProducer {} 0 (.error "refused")).result = .error "refused" ∧
    (getProducer {} 0 (.error "refused")).client.producer = some ⟨0, false⟩ ∧
    (getProducer {} 0 (.error "refused")).client.breaker.failures = 1 ∧
    (runGetProducerCalls (getProducer {} 0 (.error "refused")).client
       [(1, .ok ()), (2, .error "x"), (3, .error "y")]).breaker.state ≠ .opened := by
  have h := C9_getProducer_failed_connect {} 0 "refused" rfl rfl rfl
  exact ⟨⟨rfl, rfl, rfl⟩, h.1, h.2.2.2.1, h.2.2.2.2.1,
    h.2.2.2.2.2.2.2.2 [(1, .ok ()), (2, .error "x"), (3, .error "y")]⟩

/-! ## C3: the circuit breaker state machine -/

/-- Breaker states reachable from the freshly constructed breaker through
`execute` calls. -/
inductive BreakerReachable : Breaker → Prop where
  | init : BreakerReachable {}
  | step (b : Breaker) (now : Nat) (res : Except String Unit) :
      BreakerReachable b → BreakerReachable ((b.execute now res).breaker)

theorem reachable_opened_failures :
    ∀ (b : Breaker), BreakerReachable b → b.state = .opened →
      breakerThreshold ≤ b.failures := by
  intro b h
  induction h with
  | init => intro hs; simp at hs
  | step b now res hr ih =>
    intro hs
    by_cases hb : b.state = .opened
    · by_cases ht : breakerTimeout < now - (b.lastFailureTime.getD 0)
      · cases res with
        | ok u =>
          simp [Breaker.execute, hb, ht, Breaker.onSuccess] at hs
        | error e =>
          have h5 := ih hb
          simp [Breaker.execute, hb, ht, Breaker.onFailure]
          omega
      · have hred : (b.execute now res).breaker = b := by
          simp [Breaker.execute, hb, ht]
        rw [hred] at hs ⊢
        exact ih hs
    · cases res with
      | ok u =>
        simp [Breaker.execute, hb, Breaker.onSuccess] at hs
      | error e =>
        by_cases h5 : breakerThreshold ≤ b.failures + 1
        · simp [Breaker.execute, hb, Breaker.onFailure]
          exact h5
        · simp [Breaker.execute, hb, Breaker.onFailure, h5] at hs

theorem runCalls_consecutive_failures :
    ∀ (ts : List Nat) (b : Breaker), b.state = .closed →
      b.failures + ts.length = breakerThreshold → ts ≠ [] →
      (Breaker.runCalls b (ts.map (fun tm => (tm, Except.error "fail")))).state = .opened ∧
      (Breaker.runCalls b (ts.map (fun tm => (tm, Except.error "fail")))).failures =
        breakerThreshold := by
  intro ts
  induction ts with
  | nil => intro b _ _ hne; exact absurd rfl hne
  | cons t rest ih =>
    intro b hc hcount _
    simp only [List.map_cons, Breaker.runCalls, List.foldl_cons]
    have hexec : (b.execute t (Except.error "fail")).breaker = Breaker.onFailure b t := by
      simp [Breaker.execute, hc]
    rw [hexec]
    by_cases hrest : rest = []
    · subst hrest
      have h5 : b.failures + 1 = breakerThreshold := by
        simpa using hcount
      simp [Breaker.runCalls, Breaker.onFailure, h5]
    · have hlt : b.failures + 1 + rest.length = breakerThreshold := by
        simp at hcount
        omega
      have hlow : ¬ breakerThreshold ≤ b.failures + 1 := by
        have : rest.length ≠ 0 := fun hz => hrest (List.length_eq_zero.mp hz)
        omega
      have hstate : (Breaker.onFailure b t).state = .closed := by
        simp [Breaker.onFailure, hlow, hc]
      have := ih (Breaker.onFailure b t) hstate
        (by simp [Breaker.onFailure]; omega) hrest
      simpa [Breaker.runCalls] using this

/-- **C3**: the circuit breaker realizes the specified state machine:
from the initial CLOSED state, 5 consecutive failures of `fn` leave it OPEN;
while OPEN within the 60 s cooldown since the last failure, `execute` throws
immediately without invoking `fn` and without changing state; once the
cooldown has elapsed, the next `execute` takes the HALF_OPEN probe
transition and invokes `fn`; a success (in CLOSED or in the HALF_OPEN
probe) yields CLOSED with the failure counter reset to 0; a failure in the
HALF_OPEN probe of any reachable breaker yields OPEN again. -/
theorem C3_circuit_breaker_state_machine :
    (∀ ts : List Nat, ts.length = 5 →
       (Breaker.runCalls {} (ts.map (fun tm => (tm, Except.error "fail")))).state =
         .opened) ∧
    (∀ (b : Breaker) (now : Nat) (res : Except String Unit),
       b.state = .opened → now - (b.lastFailureTime.getD 0) ≤ breakerTimeout →
       b.execute now res = ⟨.error "Circuit breaker is OPEN", b, false, false⟩) ∧
    (∀ (b : Breaker) (now : Nat) (res : Except String Unit),
       b.state = .opened → breakerTimeout < now - (b.lastFailureTime.getD 0) →
       (b.execute now res).invoked = true ∧ (b.execute now res).halfOpenEntered = true) ∧
    (∀ (b : Breaker) (now : Nat),
       (b.state ≠ .opened ∨ breakerTimeout < now - (b.lastFailureTime.getD 0)) →
       (b.execute now (.ok ())).breaker.state = .closed ∧
       (b.execute now (.ok ())).breaker.failures = 0) ∧
    (∀ (b : Breaker) (now : Nat) (e : String),
       BreakerReachable b → b.state = .opened →
       breakerTimeout < now - (b.lastFailureTime.getD 0) →
       (b.execute now (.error e)).breaker.state = .opened) := by
  refine ⟨?_, ?_, ?_, ?_, ?_⟩
  · intro ts hlen
    exact (runCalls_consecutive_failures ts {} rfl (by simp [hlen, breakerThreshold])
      (by intro hnil; rw [hnil] at hlen; simp at hlen)).1
  · intro b now res hb ht
    simp [Breaker.execute, hb, Nat.not_lt.mpr ht]
  · intro b now res hb ht
    cases res <;> simp [Breaker.execute, hb, ht]
  · intro b now hd
    cases hd with
    | inl hnb => simp [Breaker.execute, hnb, Breaker.onSuccess]
    | inr ht =>
      by_cases hb : b.state = .opened
      · simp [Breaker.execute, hb, ht, Breaker.onSuccess]
      · simp [Breaker.execute, hb, Breaker.onSuccess]
  · intro b now e hr hb ht
    have h5 := reachable_opened_failures b hr hb
    simp [Breaker.execute, hb, ht, Breaker.onFailure]
    omega

/-- The breaker after 5 consecutive connection failures at time 0. -/
def b5 : Breaker :=
  Breaker.runCalls {} ([0, 0, 0, 0, 0].map (fun tm => (tm, Except.error "fail")))

/-- **C3** witness: the state machine exercised end to end on concrete
breakers — 5 failures open it; an immediate call bounces off; after the
cooldown a success closes it with the counter reset, and a failure
re-opens it. -/
theorem C3_witness :
    (([0, 0, 0, 0, 0] : List Nat).length = 5 ∧ b5.state = .opened) ∧
    ((⟨5, some 100, .opened⟩ : Breaker).state = .opened ∧
     200 - ((some 100 : Option Nat).getD 0) ≤ breakerTimeout ∧
     Breaker.execute ⟨5, some 100, .opened⟩ 200 (.ok ()) =
       ⟨.error "Circuit breaker is OPEN", ⟨5, some 100, .opened⟩, false, false⟩) ∧
    (breakerTimeout < 60002 - (b5.lastFailureTime.getD 0) ∧
     (Breaker.execute b5 60002 (.error "g")).invoked = true ∧
     (Breaker.execute b5 60002 (.error "g")).halfOpenEntered = true ∧
     (Breaker.execute b5 60002 (.ok ())).breaker.state = .closed ∧
     (Breaker.execute b5 60002 (.ok ())).breaker.failures = 0 ∧
     (Breaker.execute b5 60002 (.error "g")).breaker.state = .opened) := by
  have hreach : BreakerReachable b5 := by
    have r1 := BreakerReachable.step {} 0 (Except.error "fail") .init
    have r2 := BreakerReachable.step _ 0 (Except.error "fail") r1
    have r3 := BreakerReachable.step _ 0 (Except.error "fail") r2
    have r4 := BreakerReachable.step _ 0 (Except.error "fail") r3
    have r5 := BreakerReachable.step _ 0 (Except.error "fail") r4
    exact r5
  have h := C3_circuit_breaker_state_machine
  refine ⟨⟨rfl, h.1 [0, 0, 0, 0, 0] rfl⟩,
    ⟨rfl, by decide, h.2.1 ⟨5, some 100, .opened⟩ 200 (.ok ()) rfl (by decide)⟩,
    ⟨by decide, (h.2.2.1 b5 60002 (.error "g") rfl (by decide)).1,
     (h.2.2.1 b5 60002 (.error "g") rfl (by decide)).2,
     (h.2.2.2.1 b5 60002 (Or.inr (by decide))).1,
     (h.2.2.2.1 b5 60002 (Or.inr (by decide))).2,
     h.2.2.2.2 b5 60002 "g" hreach rfl (by decide)⟩⟩

/-! ## C8: pause blocks dispatch until resume -/

theorem pollPaused_none (paused : Nat → Bool) :
    ∀ (fuel t0 : Nat), (∀ k, k < fuel → paused (t0 + 100 * k) = true) →
      pollPaused paused fuel t0 = none := by
  intro fuel
  induction fuel with
  | zero => intro t0 _; rfl
  | succ m ih =>
    intro t0 hall
    have h0 : paused t0 = true := by simpa using hall 0 (Nat.succ_pos m)
    simp only [pollPaused, h0, if_true]
    exact ih (t0 + 100) (fun k hk => by
      have harg : t0 + 100 + 100 * k = t0 + 100 * (k + 1) := by ring
      rw [harg]
      exact hall (k + 1) (by omega))

theorem pollPaused_some (paused : Nat → Bool) :
    ∀ (fuel t0 td : Nat), pollPaused paused fuel t0 = some td →
      paused td = false ∧
      ∃ k, k < fuel ∧ td = t0 + 100 * k ∧ ∀ j, j < k → paused (t0 + 100 * j) = true := by
  intro fuel
  induction fuel with
  | zero => intro t0 td h; cases h
  | succ m ih =>
    intro t0 td h
    by_cases hp : paused t0 = true
    · simp only [pollPaused, hp, if_true] at h
      obtain ⟨hf, k, hk, htd, hall⟩ := ih (t0 + 100) td h
      refine ⟨hf, k + 1, by omega, by omega, ?_⟩
      intro j hj
      cases j with
      | zero => simpa using hp
      | succ j1 =>
        have harg : t0 + 100 * (j1 + 1) = t0 + 100 + 100 * j1 := by ring
        rw [harg]
        exact hall j1 (by omega)
    · have hp2 : paused t0 = false := by simpa using hp
      simp only [pollPaused, hp2, Bool.false_eq_true, if_false] at h
      cases h
      exact ⟨hp2, 0, by omega, by omega, fun j hj => absurd hj (by omega)⟩

/-- **C8**: after `pause()` sets the paused flag, no registered handler
executes for any message dispatched while it stays set: the `eachMessage`
wrapper polls the flag at 100 ms intervals before dispatching, so as long
as every polled instant sees the flag set, the dispatch (and hence the
handler) never runs; when dispatch does happen, it happens at a polled
instant where the flag is clear — i.e. only after `resume()` has cleared
it — every earlier poll having seen it set.  `pause()`/`resume()` set and
clear exactly the `isPaused` flag. -/
theorem C8_pause_blocks_dispatch :
    (∀ (paused : Nat → Bool) (fuel t0 : Nat) (st : ConsumerState) (cfg : ConsumerConfig)
       (msg : IncomingMessage) (f : Nat → Except String Unit) (dlqId dlqNow : String)
       (br : Except String Unit) (t p : Nat),
       (∀ k, k < fuel → paused (t0 + 100 * k) = true) →
       eachMessage paused fuel t0 st cfg msg f dlqId dlqNow br t p = none) ∧
    (∀ (paused : Nat → Bool) (fuel t0 td : Nat),
       pollPaused paused fuel t0 = some td →
       paused td = false ∧
       ∃ k, k < fuel ∧ td = t0 + 100 * k ∧ ∀ j, j < k → paused (t0 + 100 * j) = true) ∧
    (∀ st : ConsumerState, (pause st).isPaused = true ∧ (resume st).isPaused = false ∧
       (pause st).handlers = st.handlers ∧ (resume st).handlers = st.handlers ∧
       (resume (pause st)).isPaused = false) := by
  refine ⟨?_, pollPaused_some, ?_⟩
  · intro paused fuel t0 st cfg msg f dlqId dlqNow br t p hall
    unfold eachMessage
    rw [pollPaused_none paused fuel t0 hall]
  · intro st
    exact ⟨rfl, rfl, rfl, rfl, rfl⟩

/-- **C8** witness: with the flag held set, no dispatch happens within any
number of polls; with the flag set only at instant 0, dispatch happens at
the second poll (100 ms later), the flag being clear there. -/
theorem C8_witness :
    ((∀ k, k < 3 → (fun _ => true) (0 + 100 * k) = true) ∧
     eachMessage (fun _ => true) 3 0 {} {} ⟨USER_EVENTS, 0, "1", "t0", none⟩ fnBoom
       uuidA tsA (.ok ()) 0 0 = none) ∧
    (pollPaused (fun tm => tm == 0) 2 0 = some 100 ∧
     (fun tm => tm == 0) 100 = false ∧
     (∃ k, k < 2 ∧ 100 = 0 + 100 * k ∧
        ∀ j, j < k → (fun tm => tm == 0) (0 + 100 * j) = true)) := by
  have h := C8_pause_blocks_dispatch
  refine ⟨⟨fun k _ => rfl,
    h.1 (fun _ => true) 3 0 {} {} ⟨USER_EVENTS, 0, "1", "t0", none⟩ fnBoom uuidA tsA
      (.ok ()) 0 0 (fun k _ => rfl)⟩, rfl, ?_, ?_⟩
  · exact (h.2.1 (fun tm => tm == 0) 2 0 100 rfl).1
  · exact (h.2.1 (fun tm => tm == 0) 2 0 100 rfl).2

/-! ## C6: publishEvent wire shape -/

theorem reqStr_ok {fs : List (String × JsonVal)} {k s : String}
    (h : reqStr fs k = .ok s) : getF fs k = some (.str s) := by
  unfold reqStr at h
  cases hg : getF fs k with
  | none => rw [hg] at h; cases h
  | some j =>
    rw [hg] at h
    cases j with
    | str s1 => cases h; rfl
    | null => cases h
    | bool b => cases h
    | num n => cases h
    | arr xs => cases h
    | obj fs1 => cases h

theorem ensureB_ok {b : Bool} {msg : String} {u : Unit}
    (h : ensureB b msg = .ok u) : b = true := by
  cases b
  · simp [ensureB] at h
  · rfl

theorem bindOkInv {α β : Type} {x : Except String α} {f : α → Except String β} {b : β}
    (h : (x >>= f) = .ok b) : ∃ a, x = .ok a ∧ f a = .ok b := by
  cases x with
  | error e =>
    exact Except.noConfusion (show (Except.error e : Except String β) = Except.ok b from h)
  | ok a => exact ⟨a, rfl, h⟩

theorem parseEnvelope_ok_fields :
    ∀ (fs : List (String × JsonVal)) (v : Envelope),
      parseEnvelope (.obj fs) = .ok v →
      getF fs "eventId" = some (.str v.eventId) ∧
      getF fs "timestamp" = some (.str v.timestamp) ∧
      isUuid v.eventId = true ∧ isDatetime v.timestamp = true := by
  intro fs v h
  simp only [parseEnvelope] at h
  obtain ⟨et, het, h⟩ := bindOkInv h
  obtain ⟨eid, heid, h⟩ := bindOkInv h
  obtain ⟨u1, hu, h⟩ := bindOkInv h
  obtain ⟨ts, hts, h⟩ := bindOkInv h
  obtain ⟨u2, hd, h⟩ := bindOkInv h
  obtain ⟨ver, hver, h⟩ := bindOkInv h
  obtain ⟨md, hmd, h⟩ := bindOkInv h
  obtain ⟨pay, hpay, h⟩ := bindOkInv h
  cases h
  exact ⟨reqStr_ok heid, reqStr_ok hts, ensureB_ok hu, ensureB_ok hd⟩

theorem getF_append_not_found (k : String) (v : JsonVal) :
    ∀ (fs : List (String × JsonVal)), fs.all (fun p => !(p.1 == k)) = true →
      getF (fs ++ [(k, v)]) k = some v := by
  intro fs
  induction fs with
  | nil => intro _; simp [getF]
  | cons p rest ih =>
    intro h
    simp only [List.all_cons, Bool.and_eq_true, Bool.not_eq_true'] at h
    simp only [List.cons_append, getF, h.1, Bool.false_eq_true, if_false]
    apply ih
    simp only [List.all_eq_true, Bool.not_eq_true']
    intro x hx
    have hb := List.all_eq_true.mp h.2 x hx
    simpa using hb

theorem getF_map_replace (k : String) (v : JsonVal) :
    ∀ fs : List (String × JsonVal), fs.any (fun p => p.1 == k) = true →
      getF (fs.map (fun p => if p.1 == k then (p.1, v) else p)) k = some v := by
  intro fs
  induction fs with
  | nil => intro h; simp at h
  | cons p rest ih =>
    intro h
    by_cases hp : (p.1 == k) = true
    · simp only [List.map_cons]
      rw [if_pos hp]
      simp [getF, hp]
    · have hp2 : (p.1 == k) = false := by simpa using hp
      simp only [List.any_cons, hp2, Bool.false_or] at h
      simp only [List.map_cons]
      rw [if_neg (by simp [hp2])]
      simp only [getF, hp2, Bool.false_eq_true, if_false]
      exact ih h

theorem getF_map_replace_ne (k k1 : String) (v : JsonVal) (h : k1 ≠ k) :
    ∀ fs : List (String × JsonVal),
      getF (fs.map (fun p => if p.1 == k then (p.1, v) else p)) k1 = getF fs k1 := by
  intro fs
  induction fs with
  | nil => rfl
  | cons p rest ih =>
    by_cases hp : (p.1 == k) = true
    · have hpk : p.1 = k := by simpa using hp
      have hp1 : (p.1 == k1) = false := by
        simp only [beq_eq_false_iff_ne]
        rw [hpk]
        exact fun hh => h hh.symm
      simp only [List.map_cons]
      rw [if_pos hp]
      simp only [getF, hp1, Bool.false_eq_true, if_false]
      exact ih
    · have hpf : (p.1 == k) = false := by simpa using hp
      simp only [List.map_cons]
      rw [if_neg (by simp [hpf])]
      by_cases hp1 : (p.1 == k1) = true
      · simp only [getF, hp1, if_true]
      · have hp1f : (p.1 == k1) = false := by simpa using hp1
        simp only [getF, hp1f, Bool.false_eq_true, if_false]
        exact ih

theorem getF_append_single_ne (k k1 : String) (v : JsonVal) (h : k1 ≠ k) :
    ∀ fs : List (String × JsonVal), getF (fs ++ [(k, v)]) k1 = getF fs k1 := by
  intro fs
  induction fs with
  | nil =>
    have hkk : (k == k1) = false := by
      simp only [beq_eq_false_iff_ne]
      exact fun hh => h hh.symm
    simp [getF, hkk]
  | cons p rest ih =>
    by_cases hp1 : (p.1 == k1) = true
    · simp only [List.cons_append, getF, hp1, if_true]
    · have hp1f : (p.1 == k1) = false := by simpa using hp1
      simp only [List.cons_append, getF, hp1f, Bool.false_eq_true, if_false]
      exact ih

theorem getF_setF_same (fs : List (String × JsonVal)) (k : String) (v : JsonVal) :
    getF (setF fs k v) k = some v := by
  unfold setF
  by_cases h : fs.any (fun p => p.1 == k) = true
  · simp only [h, if_true]
    exact getF_map_replace k v fs h
  · have h2 : fs.any (fun p => p.1 == k) = false := Bool.eq_false_iff.mpr h
    simp only [h2, Bool.false_eq_true, if_false]
    apply getF_append_not_found
    simp only [List.all_eq_true, Bool.not_eq_true']
    intro p hp
    exact Bool.eq_false_iff.mpr (List.any_eq_false.mp h2 p hp)

theorem getF_setF_ne (fs : List (String × JsonVal)) (k k1 : String) (v : JsonVal)
    (h : k1 ≠ k) : getF (setF fs k v) k1 = getF fs k1 := by
  unfold setF
  by_cases ha : fs.any (fun p => p.1 == k) = true
  · simp only [ha, if_true]
    exact getF_map_replace_ne k k1 v h fs
  · have ha2 : fs.any (fun p => p.1 == k) = false := Bool.eq_false_iff.mpr ha
    simp only [ha2, Bool.false_eq_true, if_false]
    exact getF_append_single_ne k k1 v h fs

/-- After enrichment, a successful `EventSchema.parse` yields an envelope
whose `eventId` and `timestamp` are exactly the freshly generated values,
whatever the caller supplied (any same-named input fields are overridden by
the spread). -/
theorem enrich_parse_fresh (event : JsonVal) (freshId now : String) (v : Envelope)
    (h : parseEnvelope (enrich event freshId now) = .ok v) :
    v.eventId = freshId ∧ v.timestamp = now ∧
    isUuid freshId = true ∧ isDatetime now = true := by
  have hfields := parseEnvelope_ok_fields
    (setF (setF (fieldsOf event) "eventId" (.str freshId)) "timestamp" (.str now)) v h
  have hid : getF (setF (setF (fieldsOf event) "eventId" (.str freshId))
      "timestamp" (.str now)) "eventId" = some (.str freshId) := by
    rw [getF_setF_ne _ "timestamp" "eventId" _ (by decide)]
    exact getF_setF_same _ "eventId" _
  have hts : getF (setF (setF (fieldsOf event) "eventId" (.str freshId))
      "timestamp" (.str now)) "timestamp" = some (.str now) :=
    getF_setF_same _ "timestamp" _
  rw [hfields.1] at hid
  rw [hfields.2.1] at hts
  have hid2 : v.eventId = freshId := by
    injection hid with hh
    injection hh
  have hts2 : v.timestamp = now := by
    injection hts with hh
    injection hh
  exact ⟨hid2, hts2, hid2 ▸ hfields.2.2.1, hts2 ▸ hfields.2.2.2⟩

/-- **C6** (amended): for every input event whose enriched envelope
validates, `publishEvent(topic, E, options?)` produces exactly one message:
its value is the JSON-serialized validated envelope, whose `eventId` is the
freshly generated UUID and whose `timestamp` is the current ISO-8601
instant — neither taken from the caller's input, which is overridden by
the enrichment; the message key is the caller-supplied `options.key` when
that is a NON-EMPTY string and the `eventId` otherwise (`||` treats the
empty string as absent); the headers carry `eventType` and `eventId`
alongside every caller-supplied header not named `eventType`/`eventId`
(same-named caller entries are overridden). -/
theorem C6_publishEvent_message_shape :
    ∀ (topic : String) (event : JsonVal) (opts : PublishOptions) (freshId now : String)
      (v : Envelope),
      parseEnvelope (enrich event freshId now) = .ok v →
      publishEvent topic event opts freshId now =
        .ok ⟨topic, true,
          [⟨jsKey opts.key freshId, serializeEnvelope v, opts.partition,
            mkHeaders opts.headers v.eventType freshId⟩]⟩ ∧
      v.eventId = freshId ∧ v.timestamp = now ∧
      isUuid freshId = true ∧ isDatetime now = true ∧
      (∀ k, opts.key = some k → k ≠ "" → jsKey opts.key freshId = k) ∧
      ((opts.key = none ∨ opts.key = some "") → jsKey opts.key freshId = freshId) ∧
      (("eventType", v.eventType) ∈ mkHeaders opts.headers v.eventType freshId ∧
       ("eventId", freshId) ∈ mkHeaders opts.headers v.eventType freshId) ∧
      (∀ nm val, (nm, val) ∈ opts.headers → nm ≠ "eventType" → nm ≠ "eventId" →
        (nm, val) ∈ mkHeaders opts.headers v.eventType freshId) := by
  intro topic event opts freshId now v h
  obtain ⟨hid, hts, huu, hdt⟩ := enrich_parse_fresh event freshId now v h
  refine ⟨?_, hid, hts, huu, hdt, ?_, ?_, ?_, ?_⟩
  · simp only [publishEvent, h]
    rw [hid]
  · intro k hk hne
    have hkb : (k == "") = false := by
      simp only [beq_eq_false_iff_ne]
      exact hne
    simp [jsKey, hk, hkb]
  · intro hc
    cases hc with
    | inl hn => simp [jsKey, hn]
    | inr he => simp [jsKey, he]
  · constructor
    · simp [mkHeaders]
    · simp [mkHeaders]
  · intro nm val hmem hne1 hne2
    simp only [mkHeaders, List.mem_append]
    left
    rw [List.mem_filter]
    refine ⟨hmem, ?_⟩
    simp only [Bool.and_eq_true, Bool.not_eq_true', beq_eq_false_iff_ne]
    exact ⟨hne1, hne2⟩

/-- **C6** counterexample: with the caller-supplied key `""` (a supplied,
non-absent key) the message key is NOT the caller's key but the generated
`eventId` (JavaScript `||` treats `""` as falsy), and a caller-supplied
`eventId` header is overridden rather than kept alongside. -/
theorem C6_counterexample :
    ∃ req : SendRequest,
      publishEvent USER_EVENTS evJson ⟨some "", none, [("eventId", "spoof")]⟩ uuidA tsA =
        .ok req ∧
      req.messages.map (fun m => m.key) = [uuidA] ∧
      req.messages.map (fun m => m.headers) =
        [[("eventType", "user.created"), ("eventId", uuidA)]] :=
  ⟨⟨USER_EVENTS, true, [⟨jsKey (some "") vA.eventId, serializeEnvelope vA, none,
      mkHeaders [("eventId", "spoof")] vA.eventType vA.eventId⟩]⟩,
   by simp only [publishEvent, parse_evJson], rfl, rfl⟩

/-- **C6** witness: the amended theorem at the fixture event with a
non-empty caller key, a partition and a caller header. -/
theorem C6_witness :
    (parseEnvelope (enrich evJson uuidA tsA) = .ok vA) ∧
    (publishEvent USER_EVENTS evJson ⟨some "k1", some 2, [("trace", "x")]⟩ uuidA tsA =
       .ok ⟨USER_EVENTS, true,
         [⟨jsKey (some "k1") uuidA, serializeEnvelope vA, some 2,
           mkHeaders [("trace", "x")] vA.eventType uuidA⟩]⟩) ∧
    vA.eventId = uuidA ∧ vA.timestamp = tsA ∧
    isUuid uuidA = true ∧ isDatetime tsA = true ∧
    jsKey (some "k1") uuidA = "k1" ∧
    (("eventType", vA.eventType) ∈ mkHeaders [("trace", "x")] vA.eventType uuidA) ∧
    (("trace", "x") ∈ mkHeaders [("trace", "x")] vA.eventType uuidA) := by
  have h := C6_publishEvent_message_shape USER_EVENTS evJson
    ⟨some "k1", some 2, [("trace", "x")]⟩ uuidA tsA vA parse_evJson
  exact ⟨parse_evJson, h.1, h.2.1, h.2.2.1, h.2.2.2.1, h.2.2.2.2.1,
    h.2.2.2.2.2.1 "k1" rfl (by decide),
    h.2.2.2.2.2.2.2.1.1,
    h.2.2.2.2.2.2.2.2 "trace" "x" (by simp) (by decide) (by decide)⟩

end DerivedExpress
